import Mathlib

/-!
Verification of the `postgres_to_es` incremental ETL pipeline
(`src/postgres_to_es/main.py`, `src/postgres_to_es/back_off.py`).

Shallow embedding conventions:
* machine effects (DB queries, fetches, HTTP posts) are passed in as
  explicit oracles (lists or functions of outcomes);
* Python exceptions are `Except`;
* timestamps are `Nat`, ordered as the database orders `updated_at`
  (the code round-trips them through `str`, whose ISO form preserves
  that order).
-/

namespace ETL

/-! ## Retry policy (`back_off.py`, duplicated in `main.py` lines 31-55)

The decorator's inner `f_retry` keeps counters `mtries, mdelay`, loops
`while mtries > 1`, returning `f(...)` on success, and on an exception
sleeps `mdelay`, decrements `mtries` and multiplies `mdelay` by the
`backoff` factor; after the loop it calls `f` one final time with no
handler.  We embed the wrapped callable as a function from the invocation
index to that invocation's outcome, and record the full trace: how many
times `f` was invoked, the sleeps performed, and the final outcome. -/

structure RetryTrace (E A : Type) where
  calls : Nat
  sleeps : List Nat
  result : Except E A

/-- The `while mtries > 1` loop of `f_retry`; `k` is the index of the next
invocation of `f`. -/
def f_retry_loop (backoffMult : Nat) (f : Nat → Except E A)
    (k mtries mdelay : Nat) : RetryTrace E A :=
  if 1 < mtries then
    match f k with
    | Except.ok a => ⟨k + 1, [], Except.ok a⟩
    | Except.error _ =>
      let t := f_retry_loop backoffMult f (k + 1) (mtries - 1) (mdelay * backoffMult)
      ⟨t.calls, mdelay :: t.sleeps, t.result⟩
  else
    ⟨k + 1, [], f k⟩
  termination_by mtries

/-- `f_retry` itself: initializes `mtries, mdelay = tries, delay` and runs
the loop. -/
def f_retry (tries delay backoffMult : Nat) (f : Nat → Except E A) :
    RetryTrace E A :=
  f_retry_loop backoffMult f 0 tries delay

/-! ## Watermark store and change extractor (`main.py`, `PgExtractor`) -/

/-- Modelled from the spec: `State`/`JsonFileStorage`
(`postgres_to_es/state.py`, imported by `main.py` but absent from the
sources) — "durable, file-backed key/value persistence of sync progress";
`get(key) -> value|absent`, `set(key, value)` synchronously persists.  The
pipeline uses the single key `movies_updated_at`; we model the store as
that one optional value, with timestamps as `Nat`. -/
structure EtlState where
  watermark : Option Nat
  deriving Repr, DecidableEq

/-- The epoch sentinel `'1970-01-01'` written on first run. -/
def epoch : Nat := 0

/-- One aggregated row of the extraction query (grouped per movie; its
last column is `m.updated_at`, which is what `title_list[-1][-1]` reads). -/
structure MovieAgg where
  movieId : String
  updatedAt : Nat
  deriving Repr, DecidableEq

/-- The `WHERE m.updated_at > '{updated_time}'` clause of the extraction
query.  The query has no ORDER BY, so the row order is whatever the
database produces: `db` is an arbitrarily ordered list. -/
def extractQuery (db : List MovieAgg) (wm : Nat) : List MovieAgg :=
  db.filter (fun r => wm < r.updatedAt)

/-- `curs.fetchmany(n)` applied repeatedly: splits the result rows into
successive chunks of at most `n` rows (`fetchmany(0)` returns nothing, so
`n = 0` yields no chunks). -/
def fetchChunks (n : Nat) (rows : List MovieAgg) : List (List MovieAgg) :=
  if h : rows = [] ∨ n = 0 then []
  else rows.take n :: fetchChunks n (rows.drop n)
  termination_by rows.length
  decreasing_by
    push_neg at h
    have h1 : 0 < rows.length := List.length_pos.mpr h.1
    have h2 : 0 < n := Nat.pos_of_ne_zero h.2
    simp only [List.length_drop]
    omega

/-- Outcome of one `fetchmany` call: a page of rows, or an exception
raised while fetching. -/
inductive FetchRes where
  | ok (rows : List MovieAgg)
  | err (msg : String)
  deriving Repr, DecidableEq

/-- Trace of one `extract_updated_movies` generator run: the chunks
yielded, the state after each `set_state` in the loop, and the final
state. -/
structure ExtractTrace where
  yields : List (List MovieAgg)
  updates : List EtlState
  final : EtlState
  deriving Repr, DecidableEq

/-- The generator loop of `extract_updated_movies` (lines 156-163):
`while title_list := curs.fetchmany(chunk_size):` persists
`str(title_list[-1][-1])` — the last row's `updated_at` — and yields the
chunk; an empty fetch ends the loop, and an exception raised while
fetching is caught (`except Exception`), logged, and the generator simply
ends without re-raising. -/
def genRun : EtlState → List FetchRes → ExtractTrace
  | st, [] => ⟨[], [], st⟩
  | st, FetchRes.err _ :: _ => ⟨[], [], st⟩
  | st, FetchRes.ok [] :: _ => ⟨[], [], st⟩
  | _, FetchRes.ok (r :: rs) :: rest =>
      let st' : EtlState :=
        ⟨some (((r :: rs).getLast (List.cons_ne_nil r rs)).updatedAt)⟩
      let t := genRun st' rest
      ⟨(r :: rs) :: t.yields, st' :: t.updates, t.final⟩

/-- `PgExtractor.extract_updated_movies` (lines 117-165): when connected,
reads the watermark (initializing it to the epoch sentinel when absent),
issues the single filtered query, and streams it chunkwise through the
generator loop.  When not connected it only attempts `connect()` and
yields nothing, leaving the state unchanged. -/
def extract_updated_movies (connected : Bool) (db : List MovieAgg)
    (chunkSize : Nat) (st : EtlState) : ExtractTrace :=
  if connected then
    match st.watermark with
    | none =>
        genRun ⟨some epoch⟩
          ((fetchChunks chunkSize (extractQuery db epoch)).map FetchRes.ok)
    | some w =>
        genRun st ((fetchChunks chunkSize (extractQuery db w)).map FetchRes.ok)
  else ⟨[], [], st⟩

/-- A run of successive extraction cycles (the orchestrator's loop calls
the extractor once per processing cycle; each cycle sees an arbitrary
database content `db`).  Collects all watermark writes of all cycles. -/
def runCycles (chunkSize : Nat) : List (List MovieAgg) → EtlState →
    List EtlState × EtlState
  | [], st => ([], st)
  | db :: dbs, st =>
      let t := extract_updated_movies true db chunkSize st
      let rest := runCycles chunkSize dbs t.final
      (t.updates ++ rest.1, rest.2)

/-- "The stored watermark is at least `w0`." -/
def WmGe (w0 : Nat) (st : EtlState) : Prop :=
  ∃ w, st.watermark = some w ∧ w0 ≤ w

/-! ## Query-failure handling (`check_updated_movies`, lines 91-115, and
the generator's `except` clause) -/

/-- `PgExtractor.check_updated_movies`: when connected, reads the
watermark (initializing it to the epoch sentinel when absent) and runs the
cheap existence query, whose outcome is the oracle `q`; an exception is
caught and logged, and the method falls through, returning Python `None`.
When not connected it only calls `connect()` and also returns `None`. -/
def check_updated_movies (connected : Bool) (st : EtlState)
    (q : Except String Bool) : Option Bool × EtlState :=
  if connected then
    let st1 : EtlState :=
      match st.watermark with
      | none => ⟨some epoch⟩
      | some _ => st
    match q with
    | Except.ok b => (some b, st1)
    | Except.error _ => (none, st1)
  else (none, st)

/-- Python truthiness of the value `check_updated_movies` returns, as
tested by `if self.extractor.check_updated_movies():` in
`EtlManager._execute` (line 264): `None` is falsy. -/
def pyTruthy : Option Bool → Bool
  | none => false
  | some b => b

/-! ## Record transformer (`DataTransformer.transform_movies`, lines 174-199)

The transformer zips each raw row tuple with a fixed key list into a dict,
emits an action line `{"index": {"_index": "movies", "_id": ...}}`, deletes
`_id`, coerces a truthy rating with `float(...)`, and serializes the
accumulated list with `json.dumps`, joining the lines with `'\n'` and
appending one final `'\n'`. -/

mutual
/-- A Python value as held in the row tuples and serialized by
`json.dumps`: `None`, a number (`isFloat` distinguishes a `float` from the
`Decimal` psycopg2 yields for `numeric` columns — the distinction
`float(...)` erases), a string, a list, or a dict. -/
inductive PyVal : Type where
  | null : PyVal
  | num (q : ℚ) (isFloat : Bool) : PyVal
  | str (s : String) : PyVal
  | list (xs : PyList) : PyVal
  | obj (kvs : PyObj) : PyVal

/-- A Python list of `PyVal`s. -/
inductive PyList : Type where
  | nil : PyList
  | cons (v : PyVal) (tl : PyList) : PyList

/-- A Python dict of `PyVal`s (insertion-ordered, unique keys). -/
inductive PyObj : Type where
  | nil : PyObj
  | cons (k : String) (v : PyVal) (tl : PyObj) : PyObj
end

/-- Decimal digit characters. -/
def digitChar (n : Nat) : Char :=
  match n with
  | 0 => '0' | 1 => '1' | 2 => '2' | 3 => '3' | 4 => '4'
  | 5 => '5' | 6 => '6' | 7 => '7' | 8 => '8' | _ => '9'

/-- Decimal rendering of a natural number. -/
def natDumps (n : Nat) : String :=
  if n < 10 then String.singleton (digitChar n)
  else natDumps (n / 10) ++ String.singleton (digitChar (n % 10))
  termination_by n
  decreasing_by
    have : 0 < n := by omega
    exact Nat.div_lt_self this (by omega)

/-- Decimal rendering of an integer. -/
def intDumps (i : Int) : String :=
  if i < 0 then "-" ++ natDumps i.natAbs else natDumps i.natAbs

/-- Rendering of a number by `json.dumps`.  Python prints floats in plain
decimal notation; the exact digit string never matters to the pipeline's
observable properties, so we use a simple exact rendering (the numerator,
plus a fractional marker); all any claim needs is that — like Python's
rendering — it contains no newline. -/
def numDumps (q : ℚ) (isFloat : Bool) : String :=
  if q.den = 1 then intDumps q.num ++ (if isFloat then ".0" else "")
  else intDumps q.num ++ "%" ++ natDumps q.den

/-- `json.dumps` string escaping: the characters that JSON must escape are
replaced by backslash sequences, so the emitted text never contains a raw
newline. -/
def escChar (c : Char) : String :=
  if c = '"' then "\\\""
  else if c = '\\' then "\\\\"
  else if c = '\n' then "\\n"
  else if c = '\r' then "\\r"
  else if c = '\t' then "\\t"
  else String.singleton c

/-- `json.dumps` of a string: quoted, characters escaped. -/
def strDumps (s : String) : String :=
  "\"" ++ s.data.foldr (fun c acc => escChar c ++ acc) "" ++ "\""

/-- Python exceptions the transformer can raise. -/
inductive PyErr where
  | keyError (k : String)
  | typeError
  deriving Repr, DecidableEq

mutual
/-- `json.dumps` with its default separators `", "` and `": "`.  A number
that is not a `float` — in this pipeline the `Decimal` the driver yields
for `numeric` columns — is not JSON-serializable: stdlib `json.dumps`
raises `TypeError` on it, aborting serialization of the whole line. -/
def dumps : PyVal → Except PyErr String
  | PyVal.null => Except.ok "null"
  | PyVal.num q f =>
      if f then Except.ok (numDumps q f) else Except.error PyErr.typeError
  | PyVal.str s => Except.ok (strDumps s)
  | PyVal.list xs =>
      match dumpsList xs with
      | Except.error e => Except.error e
      | Except.ok body => Except.ok ("[" ++ body ++ "]")
  | PyVal.obj kvs =>
      match dumpsObj kvs with
      | Except.error e => Except.error e
      | Except.ok body => Except.ok ("\x7b" ++ body ++ "\x7d")

/-- Comma-separated list elements; the first unserializable element
raises. -/
def dumpsList : PyList → Except PyErr String
  | PyList.nil => Except.ok ""
  | PyList.cons v PyList.nil => dumps v
  | PyList.cons v (PyList.cons w tl) =>
      match dumps v, dumpsList (PyList.cons w tl) with
      | Except.error e, _ => Except.error e
      | _, Except.error e => Except.error e
      | Except.ok s, Except.ok rest => Except.ok (s ++ ", " ++ rest)

/-- Comma-separated `"key": value` dict entries; the first unserializable
value raises. -/
def dumpsObj : PyObj → Except PyErr String
  | PyObj.nil => Except.ok ""
  | PyObj.cons k v PyObj.nil =>
      match dumps v with
      | Except.error e => Except.error e
      | Except.ok s => Except.ok (strDumps k ++ ": " ++ s)
  | PyObj.cons k v (PyObj.cons k2 v2 tl) =>
      match dumps v, dumpsObj (PyObj.cons k2 v2 tl) with
      | Except.error e, _ => Except.error e
      | _, Except.error e => Except.error e
      | Except.ok s, Except.ok rest =>
          Except.ok (strDumps k ++ ": " ++ s ++ ", " ++ rest)
end

mutual
/-- JSON-serializability under `json.dumps`: everything the pipeline's
rows carry serializes except a non-`float` number (the driver's
`Decimal`). -/
def serOk : PyVal → Bool
  | PyVal.null => true
  | PyVal.num _ f => f
  | PyVal.str _ => true
  | PyVal.list xs => serOkList xs
  | PyVal.obj kvs => serOkObj kvs

/-- All list elements serializable. -/
def serOkList : PyList → Bool
  | PyList.nil => true
  | PyList.cons v tl => serOk v && serOkList tl

/-- All dict values serializable. -/
def serOkObj : PyObj → Bool
  | PyObj.nil => true
  | PyObj.cons _ v tl => serOk v && serOkObj tl
end

/-- A dict as built from `zip`: an insertion-ordered association list. -/
def PyObj.ofList : List (String × PyVal) → PyObj
  | [] => PyObj.nil
  | (k, v) :: tl => PyObj.cons k v (PyObj.ofList tl)

/-- Python dict access `d[key]` on an insertion-ordered dict with unique
keys. -/
def lookup : List (String × PyVal) → String → Option PyVal
  | [], _ => none
  | (k, v) :: tl, key => if k = key then some v else lookup tl key

/-- `del d[key]` (the key is present at every call site reached). -/
def dictDel (d : List (String × PyVal)) (key : String) :
    List (String × PyVal) :=
  d.filter (fun kv => kv.1 != key)

/-- `d[key] = v` for a key already present: replace in place. -/
def dictSet (d : List (String × PyVal)) (key : String) (v : PyVal) :
    List (String × PyVal) :=
  d.map (fun kv => if kv.1 = key then (key, v) else kv)

/-- Dict access on the serialized-side representation. -/
def objLookup : PyObj → String → Option PyVal
  | PyObj.nil, _ => none
  | PyObj.cons k v tl, key => if k = key then some v else objLookup tl key

/-- The key list zipped against each row tuple (lines 179-189). -/
def movieKeys : List String :=
  ["_id", "imdb_rating", "genre", "title", "description", "director",
   "actors_names", "writers_names", "actors", "writers"]

/-- The keys following `_id` and `imdb_rating`. -/
def movieTailKeys : List String := movieKeys.drop 2

/-- Python truthiness, as tested by `if movie_dict['imdb_rating']:`
(line 193): `None`, numeric zero, and empty containers are falsy. -/
def truthy : PyVal → Bool
  | PyVal.null => false
  | PyVal.num q _ => decide (q ≠ 0)
  | PyVal.str s => decide (s ≠ "")
  | PyVal.list PyList.nil => false
  | PyVal.list (PyList.cons _ _) => true
  | PyVal.obj PyObj.nil => false
  | PyVal.obj (PyObj.cons _ _ _) => true

/-- `float(...)` applied to the rating (line 194): a number becomes a
`float` of the same value; the ratings the query yields are `Decimal` or
`NULL`, and `NULL` never reaches this call (it is falsy), so non-numeric
arguments are modelled as the `TypeError` that `float` raises on them. -/
def pyFloat : PyVal → Except PyErr PyVal
  | PyVal.num q _ => Except.ok (PyVal.num q true)
  | _ => Except.error PyErr.typeError

/-- The action line `{"index": {"_index": "movies", "_id": ...}}`
(line 191). -/
def mkAction (idv : PyVal) : PyVal :=
  PyVal.obj (PyObj.cons "index"
    (PyVal.obj (PyObj.cons "_index" (PyVal.str "movies")
      (PyObj.cons "_id" idv PyObj.nil))) PyObj.nil)

/-- The per-record body of the transform loop (lines 178-196):
`zip` the key list with the row (truncating at the shorter), build the
action line from `movie_dict['_id']` (a missing key raises `KeyError`),
delete `_id`, test the rating's truthiness (again raising `KeyError` when
the key is missing), coerce a truthy rating with `float(...)`, and emit
the (action, document) pair. -/
def transformMovie (movie : List PyVal) : Except PyErr (PyVal × PyVal) :=
  let d := movieKeys.zip movie
  match lookup d "_id" with
  | none => Except.error (PyErr.keyError "_id")
  | some idv =>
    let d1 := dictDel d "_id"
    match lookup d1 "imdb_rating" with
    | none => Except.error (PyErr.keyError "imdb_rating")
    | some rv =>
      if truthy rv then
        match pyFloat rv with
        | Except.error e => Except.error e
        | Except.ok fv =>
            Except.ok (mkAction idv,
              PyVal.obj (PyObj.ofList (dictSet d1 "imdb_rating" fv)))
      else Except.ok (mkAction idv, PyVal.obj (PyObj.ofList d1))

/-- The `result` list accumulated for one chunk: per movie, the action
line followed by the document; an exception aborts the whole chunk with
nothing yielded. -/
def transformResult : List (List PyVal) → Except PyErr (List PyVal)
  | [] => Except.ok []
  | m :: tl =>
      match transformMovie m with
      | Except.error e => Except.error e
      | Except.ok (a, d) =>
          match transformResult tl with
          | Except.error e => Except.error e
          | Except.ok rest => Except.ok (a :: d :: rest)

/-- Python `sep.join(strings)`. -/
def pyJoin (sep : String) : List String → String
  | [] => ""
  | [s] => s
  | s :: r :: rest => s ++ sep ++ pyJoin sep (r :: rest)

/-- The list comprehension `[json.dumps(line) for line in result]`
(line 197): lines are serialized left to right, and the first `TypeError`
raises out of the generator with no payload produced. -/
def dumpsLines : List PyVal → Except PyErr (List String)
  | [] => Except.ok []
  | v :: tl =>
      match dumps v with
      | Except.error e => Except.error e
      | Except.ok s =>
          match dumpsLines tl with
          | Except.error e => Except.error e
          | Except.ok rest => Except.ok (s :: rest)

/-- One chunk's payload (line 197):
`'\n'.join([json.dumps(line) for line in result]) + '\n'`; a `TypeError`
from `json.dumps` propagates, producing no payload. -/
def transform_movies (chunk : List (List PyVal)) : Except PyErr String :=
  match transformResult chunk with
  | Except.error e => Except.error e
  | Except.ok res =>
      match dumpsLines res with
      | Except.error e => Except.error e
      | Except.ok lines => Except.ok (pyJoin "\n" lines ++ "\n")

/-- An extracted row's rating column as the source query can produce it:
SQL `NULL` or a numeric value. -/
def isRatingVal : PyVal → Bool
  | PyVal.null => true
  | PyVal.num _ _ => true
  | _ => false

/-- The rating column as serialization survives it: `NULL`, a `float`,
or a nonzero `Decimal` (the truthiness guard sends a nonzero value
through `float(...)`); a present zero `Decimal` escapes coercion and
later makes `json.dumps` raise. -/
def ratingSer : PyVal → Bool
  | PyVal.null => true
  | PyVal.num q f => f || decide (q ≠ 0)
  | _ => false

/-- A well-formed Source Record row whose transform serializes: the 11
columns of the extraction query, with a JSON-serializable identifier and
document fields, and a rating that is `NULL` or numeric but not the zero
`Decimal`. -/
def SourceRowSer (m : List PyVal) : Prop :=
  m.length = 11 ∧ serOk (m.getD 0 PyVal.null) = true ∧
    ratingSer (m.getD 1 PyVal.null) = true ∧
    ∀ v ∈ (m.drop 2).take 8, serOk v = true

/-- The string contains no raw newline character. -/
abbrev NoNL (s : String) : Prop := '\n' ∉ s.data

/-- Whether a value is a Python `float` (as opposed to the `Decimal` the
database driver delivers). -/
def isFloatPy : PyVal → Bool
  | PyVal.num _ f => f
  | _ => false

/-! ## Index uploader (`EsUploader.upload_movies`, lines 223-236) -/

/-- One observable step of the upload loop. -/
inductive UploadEvent where
  | posted (ok : Bool)
  | slept
  deriving Repr, DecidableEq

/-- `upload_movies`: for each transformed payload, POSTs it to the bulk
URL inside `try: requests.post(...); logger.info(...); time.sleep(...)
except Exception as e: logger.debug(...)`.  `post` is the transport
oracle.  A transport failure skips the pacing sleep of that iteration but
is caught and logged; the loop continues with the next payload, and the
second component — the exception escaping the method — is always `none`. -/
def upload_movies (post : String → Except String Unit) :
    List String → List UploadEvent × Option String
  | [] => ([], none)
  | p :: rest =>
      let t := upload_movies post rest
      match post p with
      | Except.ok _ =>
          (UploadEvent.posted true :: UploadEvent.slept :: t.1, t.2)
      | Except.error _ => (UploadEvent.posted false :: t.1, t.2)

/-- Whether an event is a POST attempt. -/
def isPosted : UploadEvent → Bool
  | UploadEvent.posted _ => true
  | UploadEvent.slept => false

/-! ## Process signals (`terminate_process` and `__main__`, lines 277-284) -/

/-- The two standard termination signals. -/
inductive Sig where
  | sigterm
  | sigint
  deriving Repr, DecidableEq

/-- The signals the program registers a handler for (line 283:
`signal.signal(signal.SIGTERM, terminate_process)`): only SIGTERM.
SIGINT keeps Python's default behavior (raise `KeyboardInterrupt`). -/
def registeredSignals : List Sig := [Sig.sigterm]

/-- What a signal's arrival does to the in-flight cycle: set a
cooperative-stop flag and return, or terminate execution on the spot. -/
inductive HandlerEffect where
  | setStopFlag
  | exitNow
  deriving Repr, DecidableEq

/-- `terminate_process` (lines 277-279): logs and calls `sys.exit()`,
which raises `SystemExit` immediately inside the handler — it sets no
flag and does not defer to any end-of-cycle checkpoint. -/
def terminate_process : List String × HandlerEffect :=
  (["(SIGTERM) terminating process"], HandlerEffect.exitNow)

/-- The effect of a termination signal delivered mid-cycle: a registered
signal runs `terminate_process`; an unregistered one gets Python's
default `KeyboardInterrupt`, which also interrupts execution
immediately. -/
def signalEffect (s : Sig) : HandlerEffect :=
  if s ∈ registeredSignals then terminate_process.2 else HandlerEffect.exitNow

/-- A cycle in which signal `s` arrives runs to completion only when the
signal's effect is merely raising a flag. -/
def cycleCompletes (s : Sig) : Bool :=
  match signalEffect s with
  | HandlerEffect.setStopFlag => true
  | HandlerEffect.exitNow => false

/-! ## Theorems -/

/-- C5: For the backoff wrapper configured with tries=4, delay=3, backoff=2,
an operation failing on every invocation is invoked exactly 4 times, the
three sleeps last 3, 6 and 12 seconds, and the final (4th) failure is
raised to the caller. -/
theorem backoff_schedule_tries4 (E A : Type) (err : Nat → E) :
    f_retry 4 3 2 (fun k => (Except.error (err k) : Except E A)) =
      ⟨4, [3, 6, 12], Except.error (err 3)⟩ := by
  simp [f_retry, f_retry_loop]

/-- C10: with `tries ≤ 1` the loop body never runs: the wrapped function is
invoked exactly once, no sleep happens, and its outcome (value or
exception) is passed through unchanged. -/
theorem backoff_single_attempt (E A : Type) (tries delay backoffMult : Nat)
    (h : tries ≤ 1) (f : Nat → Except E A) :
    f_retry tries delay backoffMult f = ⟨1, [], f 0⟩ := by
  rw [f_retry, f_retry_loop]
  rw [if_neg (by omega)]

/-- Witness for `backoff_single_attempt` at `tries = 1`. -/
theorem backoff_single_attempt_witness :
    f_retry 1 5 7 (fun _ => (Except.ok 42 : Except String Nat)) =
      ⟨1, [], Except.ok 42⟩ :=
  backoff_single_attempt String Nat 1 5 7 (by decide) _

theorem fetchChunks_flatten (n : Nat) (hn : 0 < n) (rows : List MovieAgg) :
    (fetchChunks n rows).flatten = rows := by
  induction rows using fetchChunks.induct n with
  | case1 rows h =>
      rw [fetchChunks, dif_pos h]
      rcases h with h | h
      · simp [h]
      · omega
  | case2 rows h ih =>
      rw [fetchChunks, dif_neg h]
      simp only [List.flatten_cons, ih]
      exact List.take_append_drop n rows

theorem fetchChunks_mem (n : Nat) (rows : List MovieAgg) :
    ∀ c ∈ fetchChunks n rows, c ≠ [] ∧ c.length ≤ n ∧ ∀ r ∈ c, r ∈ rows := by
  induction rows using fetchChunks.induct n with
  | case1 rows h =>
      rw [fetchChunks, dif_pos h]
      intro c hc
      simp at hc
  | case2 rows h ih =>
      rw [fetchChunks, dif_neg h]
      push_neg at h
      intro c hc
      rcases List.mem_cons.mp hc with rfl | hc
      · refine ⟨?_, ?_, ?_⟩
        · simp [List.take_eq_nil_iff, h.1, h.2]
        · simp
        · intro r hr
          exact List.take_subset n rows hr
      · obtain ⟨h1, h2, h3⟩ := ih c hc
        exact ⟨h1, h2, fun r hr => List.drop_subset n rows (h3 r hr)⟩

/-- Every watermark write of the generator loop, and its final state, carry
a value at least `w0`, provided the incoming state does and every fetched
row's `updated_at` is at least `w0`. -/
theorem genRun_wmGe (w0 : Nat) : ∀ (frs : List FetchRes) (st : EtlState),
    WmGe w0 st →
    (∀ fr ∈ frs, ∀ rows, fr = FetchRes.ok rows →
      ∀ r ∈ rows, w0 ≤ r.updatedAt) →
    (∀ s ∈ (genRun st frs).updates, WmGe w0 s) ∧ WmGe w0 (genRun st frs).final
  | [], st, hst, _ => by
      refine ⟨?_, hst⟩
      intro s hs
      simp [genRun] at hs
  | FetchRes.err _ :: _, st, hst, _ => by
      refine ⟨?_, hst⟩
      intro s hs
      simp [genRun] at hs
  | FetchRes.ok [] :: _, st, hst, _ => by
      refine ⟨?_, hst⟩
      intro s hs
      simp [genRun] at hs
  | FetchRes.ok (r :: rs) :: rest, st, hst, hrows => by
      have hlast : (r :: rs).getLast (List.cons_ne_nil r rs) ∈ r :: rs :=
        List.getLast_mem _
      have hge : w0 ≤ ((r :: rs).getLast (List.cons_ne_nil r rs)).updatedAt :=
        hrows _ (List.mem_cons_self _ _) (r :: rs) rfl _ hlast
      have hst' : WmGe w0 ⟨some (((r :: rs).getLast
          (List.cons_ne_nil r rs)).updatedAt)⟩ := ⟨_, rfl, hge⟩
      have ih := genRun_wmGe w0 rest
        ⟨some (((r :: rs).getLast (List.cons_ne_nil r rs)).updatedAt)⟩
        hst' (fun fr hfr => hrows fr (List.mem_cons_of_mem _ hfr))
      refine ⟨?_, ih.2⟩
      intro s hs
      simp only [genRun] at hs
      rcases List.mem_cons.mp hs with rfl | hs
      · exact hst'
      · exact ih.1 s hs

/-- Every watermark write of a single connected extraction call, and its
final state, stay at or above the watermark the call started from. -/
theorem extract_wmGe (db : List MovieAgg) (n : Nat) (st : EtlState)
    (w : Nat) (hst : st.watermark = some w) :
    (∀ s ∈ (extract_updated_movies true db n st).updates, WmGe w s) ∧
      WmGe w (extract_updated_movies true db n st).final := by
  have hq : ∀ fr ∈ (fetchChunks n (extractQuery db w)).map FetchRes.ok,
      ∀ rows, fr = FetchRes.ok rows → ∀ r ∈ rows, w ≤ r.updatedAt := by
    intro fr hfr rows hrw r hr
    subst hrw
    obtain ⟨c, hc, hfc⟩ := List.mem_map.mp hfr
    have hcr : rows = c := by injection hfc with h; exact h.symm
    rw [hcr] at hr
    have hmem := (fetchChunks_mem n (extractQuery db w) c hc).2.2 r hr
    have := (List.mem_filter.mp hmem).2
    simp at this
    omega
  have h := genRun_wmGe w
    ((fetchChunks n (extractQuery db w)).map FetchRes.ok) st
    ⟨w, hst, le_refl w⟩ hq
  simpa [extract_updated_movies, hst] using h

/-- C1: across any run of extraction cycles starting with watermark `w0`,
every persisted watermark value — after each in-cycle write and at the end
of the run — is at least `w0`. -/
theorem watermark_monotone (chunkSize : Nat) (dbs : List (List MovieAgg))
    (st0 : EtlState) (w0 : Nat) (h0 : st0.watermark = some w0) :
    (∀ s ∈ (runCycles chunkSize dbs st0).1, WmGe w0 s) ∧
      WmGe w0 (runCycles chunkSize dbs st0).2 := by
  induction dbs generalizing st0 w0 with
  | nil =>
      refine ⟨?_, ⟨w0, h0, le_refl w0⟩⟩
      intro s hs
      simp [runCycles] at hs
  | cons db dbs ih =>
      obtain ⟨hu, wf, hwf, hle⟩ := extract_wmGe db chunkSize st0 w0 h0
      obtain ⟨hrest, hfin⟩ := ih (extract_updated_movies true db chunkSize st0).final wf hwf
      constructor
      · intro s hs
        simp only [runCycles, List.mem_append] at hs
        rcases hs with hs | hs
        · exact hu s hs
        · obtain ⟨w, hw, hge⟩ := hrest s hs
          exact ⟨w, hw, le_trans hle hge⟩
      · obtain ⟨w, hw, hge⟩ := hfin
        exact ⟨w, hw, le_trans hle hge⟩

/-- Witness for `watermark_monotone` on a concrete two-cycle run. -/
theorem watermark_monotone_witness :
    (∀ s ∈ (runCycles 1 [[⟨"m1", 5⟩], [⟨"m2", 9⟩, ⟨"m3", 7⟩]] ⟨some 3⟩).1,
        WmGe 3 s) ∧
      WmGe 3 (runCycles 1 [[⟨"m1", 5⟩], [⟨"m2", 9⟩, ⟨"m3", 7⟩]] ⟨some 3⟩).2 :=
  watermark_monotone 1 [[⟨"m1", 5⟩], [⟨"m2", 9⟩, ⟨"m3", 7⟩]] ⟨some 3⟩ 3 rfl

/-- On an error-free fetch sequence the generator yields exactly the given
chunks, performs one state write per chunk, and each write stores the last
row's `updated_at` of its chunk. -/
theorem genRun_ok_chunks : ∀ (cs : List (List MovieAgg)) (st : EtlState),
    (∀ c ∈ cs, c ≠ []) →
    (genRun st (cs.map FetchRes.ok)).yields = cs ∧
    (genRun st (cs.map FetchRes.ok)).updates.length = cs.length ∧
    ∀ p ∈ cs.zip (genRun st (cs.map FetchRes.ok)).updates,
      p.2.watermark = (p.1.getLast?).map MovieAgg.updatedAt
  | [], st, _ => by
      simp [genRun]
  | [] :: cs, _, h => ((h [] (List.mem_cons_self _ _)) rfl).elim
  | (r :: rs) :: cs, st, h => by
      have ih := genRun_ok_chunks cs
        ⟨some (((r :: rs).getLast (List.cons_ne_nil r rs)).updatedAt)⟩
        (fun c hc => h c (List.mem_cons_of_mem _ hc))
      simp only [List.map_cons, genRun]
      refine ⟨by simp [ih.1], by simp [ih.2.1], ?_⟩
      intro p hp
      rw [List.zip_cons_cons] at hp
      rcases List.mem_cons.mp hp with rfl | hp
      · simp only [List.getLast?_eq_getLast _ (List.cons_ne_nil r rs),
          Option.map_some']
      · exact ih.2.2 p hp

/-- C2 (amended): during a connected extraction from watermark `w`, the
chunks yielded partition exactly the rows with `updated_at > w` in query
order; the watermark is written once per chunk (not once per record), the
write happening before the chunk is yielded and storing the `updated_at`
of the chunk's last row; every chunk is nonempty, at most `chunkSize`
long, and contains only rows newer than `w`. -/
theorem watermark_advances_per_chunk (db : List MovieAgg) (n : Nat)
    (st : EtlState) (w : Nat) (hst : st.watermark = some w) (hn : 0 < n) :
    (extract_updated_movies true db n st).yields.flatten = extractQuery db w ∧
    (extract_updated_movies true db n st).updates.length =
      (extract_updated_movies true db n st).yields.length ∧
    ∀ p ∈ (extract_updated_movies true db n st).yields.zip
        (extract_updated_movies true db n st).updates,
      p.1 ≠ [] ∧ p.1.length ≤ n ∧
      p.2.watermark = (p.1.getLast?).map MovieAgg.updatedAt ∧
      ∀ r ∈ p.1, w < r.updatedAt := by
  have hne : ∀ c ∈ fetchChunks n (extractQuery db w), c ≠ [] :=
    fun c hc => (fetchChunks_mem n (extractQuery db w) c hc).1
  have hex : extract_updated_movies true db n st =
      genRun st ((fetchChunks n (extractQuery db w)).map FetchRes.ok) := by
    simp [extract_updated_movies, hst]
  obtain ⟨hy, hlen, hz⟩ := genRun_ok_chunks (fetchChunks n (extractQuery db w)) st hne
  rw [hex, hy]
  refine ⟨fetchChunks_flatten n hn (extractQuery db w), by rw [hlen], ?_⟩
  intro p hp
  have hp1 := (List.of_mem_zip hp).1
  obtain ⟨hne1, hlen1, hsub1⟩ := fetchChunks_mem n (extractQuery db w) p.1 hp1
  refine ⟨hne1, hlen1, hz p hp, ?_⟩
  intro r hr
  have := (List.mem_filter.mp (hsub1 r hr)).2
  simpa using this

/-- Witness for `watermark_advances_per_chunk` on a concrete input. -/
theorem watermark_advances_per_chunk_witness :
    (extract_updated_movies true [⟨"m1", 5⟩, ⟨"m2", 9⟩] 2 ⟨some 0⟩).yields.flatten =
      extractQuery [⟨"m1", 5⟩, ⟨"m2", 9⟩] 0 ∧
    (extract_updated_movies true [⟨"m1", 5⟩, ⟨"m2", 9⟩] 2 ⟨some 0⟩).updates.length =
      (extract_updated_movies true [⟨"m1", 5⟩, ⟨"m2", 9⟩] 2 ⟨some 0⟩).yields.length ∧
    ∀ p ∈ (extract_updated_movies true [⟨"m1", 5⟩, ⟨"m2", 9⟩] 2 ⟨some 0⟩).yields.zip
        (extract_updated_movies true [⟨"m1", 5⟩, ⟨"m2", 9⟩] 2 ⟨some 0⟩).updates,
      p.1 ≠ [] ∧ p.1.length ≤ 2 ∧
      p.2.watermark = (p.1.getLast?).map MovieAgg.updatedAt ∧
      ∀ r ∈ p.1, 0 < r.updatedAt :=
  watermark_advances_per_chunk [⟨"m1", 5⟩, ⟨"m2", 9⟩] 2 ⟨some 0⟩ 0 rfl (by decide)

/-- C2 (counterexample): with watermark 0 and two changed rows (times 5
and 9) fetched as a single chunk of size 2, both records are read and
yielded, yet only one watermark write occurs — the per-record trace
`[some 5, some 9]` is not produced, and the value 5 is never stored, so
the watermark does not advance per record. -/
theorem watermark_per_record_cex :
    (extract_updated_movies true [⟨"m1", 5⟩, ⟨"m2", 9⟩] 2 ⟨some 0⟩).yields.flatten =
      [⟨"m1", 5⟩, ⟨"m2", 9⟩] ∧
    (extract_updated_movies true [⟨"m1", 5⟩, ⟨"m2", 9⟩] 2 ⟨some 0⟩).updates ≠
      ([⟨"m1", 5⟩, ⟨"m2", 9⟩] : List MovieAgg).map
        (fun r => EtlState.mk (some r.updatedAt)) ∧
    EtlState.mk (some 5) ∉
      (extract_updated_movies true [⟨"m1", 5⟩, ⟨"m2", 9⟩] 2 ⟨some 0⟩).updates := by
  have hfc : fetchChunks 2 (extractQuery [⟨"m1", 5⟩, ⟨"m2", 9⟩] 0) =
      [[⟨"m1", 5⟩, ⟨"m2", 9⟩]] := by
    rw [show extractQuery [⟨"m1", 5⟩, ⟨"m2", 9⟩] 0 =
        [⟨"m1", 5⟩, ⟨"m2", 9⟩] from rfl]
    rw [fetchChunks, dif_neg (by simp)]
    rw [show ([⟨"m1", 5⟩, ⟨"m2", 9⟩] : List MovieAgg).drop 2 = [] from rfl]
    rw [fetchChunks, dif_pos (Or.inl rfl)]
    rfl
  have hex : extract_updated_movies true [⟨"m1", 5⟩, ⟨"m2", 9⟩] 2 ⟨some 0⟩ =
      ⟨[[⟨"m1", 5⟩, ⟨"m2", 9⟩]], [⟨some 9⟩], ⟨some 9⟩⟩ := by
    show genRun ⟨some 0⟩
      ((fetchChunks 2 (extractQuery [⟨"m1", 5⟩, ⟨"m2", 9⟩] 0)).map FetchRes.ok) = _
    rw [hfc]
    rfl
  rw [hex]
  refine ⟨rfl, by decide, by decide⟩

/-- C9: a query exception is swallowed: `check_updated_movies` returns
`None`, which the orchestrator's truthiness test treats exactly like
`False` ("no pending changes"); and the extraction generator, hitting a
fetch error after any error-free prefix, produces exactly the trace it
would produce if the source had simply reported end-of-data there — the
failure is indistinguishable from normal stream end and nothing is
re-raised. -/
theorem query_error_swallowed (st st' : EtlState) (e : String)
    (l₁ l₂ l₂' : List FetchRes) :
    (check_updated_movies true st (Except.error e)).1 = none ∧
    pyTruthy (check_updated_movies true st (Except.error e)).1 =
      pyTruthy (some false) ∧
    genRun st' (l₁ ++ FetchRes.err e :: l₂) =
      genRun st' (l₁ ++ FetchRes.ok [] :: l₂') := by
  refine ⟨?_, ?_, ?_⟩
  · cases h : st.watermark <;> simp [check_updated_movies, h]
  · cases h : st.watermark <;> simp [check_updated_movies, pyTruthy, h]
  · induction l₁ generalizing st' with
    | nil => rfl
    | cons fr l₁ ih =>
        match fr with
        | FetchRes.err _ => rfl
        | FetchRes.ok [] => rfl
        | FetchRes.ok (r :: rs) =>
            simp only [List.cons_append, genRun, List.append_eq]
            rw [ih]

theorem NoNL_append {a b : String} (ha : NoNL a) (hb : NoNL b) :
    NoNL (a ++ b) := by
  simp only [NoNL, String.data_append, List.mem_append]
  exact fun h => h.elim ha hb

theorem digitChar_ne_nl (n : Nat) : digitChar n ≠ '\n' := by
  unfold digitChar
  split <;> decide

theorem singleton_noNL {c : Char} (h : c ≠ '\n') : NoNL (String.singleton c) := by
  show '\n' ∉ [c]
  intro hm
  rw [List.mem_singleton] at hm
  exact h hm.symm

theorem natDumps_noNL (n : Nat) : NoNL (natDumps n) := by
  induction n using natDumps.induct with
  | case1 n h =>
      rw [natDumps, if_pos h]
      exact singleton_noNL (digitChar_ne_nl n)
  | case2 n h ih =>
      rw [natDumps, if_neg h]
      exact NoNL_append ih (singleton_noNL (digitChar_ne_nl (n % 10)))

theorem intDumps_noNL (i : Int) : NoNL (intDumps i) := by
  rw [intDumps]
  split
  · exact NoNL_append (by decide) (natDumps_noNL _)
  · exact natDumps_noNL _

theorem numDumps_noNL (q : ℚ) (f : Bool) : NoNL (numDumps q f) := by
  rw [numDumps]
  split
  · refine NoNL_append (intDumps_noNL _) ?_
    split <;> decide
  · exact NoNL_append (NoNL_append (intDumps_noNL _) (by decide)) (natDumps_noNL _)

theorem escChar_noNL (c : Char) : NoNL (escChar c) := by
  rw [escChar]
  split
  · decide
  · split
    · decide
    · split
      · decide
      · split
        · decide
        · split
          · decide
          · rename_i h1 h2 h3 h4 h5
            exact singleton_noNL h3

theorem strDumps_noNL (s : String) : NoNL (strDumps s) := by
  rw [strDumps]
  refine NoNL_append (NoNL_append (by decide) ?_) (by decide)
  induction s.data with
  | nil => decide
  | cons c cs ih => exact NoNL_append (escChar_noNL c) ih

mutual
theorem dumps_noNL : ∀ (v : PyVal) (s : String), dumps v = Except.ok s → NoNL s
  | PyVal.null, s, h => by
      rw [dumps] at h
      injection h with h2
      exact h2 ▸ (by decide)
  | PyVal.num q f, s, h => by
      rw [dumps] at h
      cases f with
      | false => simp at h
      | true =>
          rw [if_pos rfl] at h
          injection h with h2
          exact h2 ▸ numDumps_noNL q true
  | PyVal.str s0, s, h => by
      rw [dumps] at h
      injection h with h2
      exact h2 ▸ strDumps_noNL s0
  | PyVal.list xs, s, h => by
      rw [dumps] at h
      cases hx : dumpsList xs with
      | error e => rw [hx] at h; simp at h
      | ok body =>
          rw [hx] at h
          injection h with h2
          exact h2 ▸ NoNL_append
            (NoNL_append (by decide) (dumpsList_noNL xs body hx)) (by decide)
  | PyVal.obj kvs, s, h => by
      rw [dumps] at h
      cases hx : dumpsObj kvs with
      | error e => rw [hx] at h; simp at h
      | ok body =>
          rw [hx] at h
          injection h with h2
          exact h2 ▸ NoNL_append
            (NoNL_append (by decide) (dumpsObj_noNL kvs body hx)) (by decide)

theorem dumpsList_noNL : ∀ (xs : PyList) (s : String),
    dumpsList xs = Except.ok s → NoNL s
  | PyList.nil, s, h => by
      rw [dumpsList] at h
      injection h with h2
      exact h2 ▸ (by decide)
  | PyList.cons v PyList.nil, s, h => by
      rw [dumpsList] at h
      exact dumps_noNL v s h
  | PyList.cons v (PyList.cons w tl), s, h => by
      rw [dumpsList] at h
      cases hv : dumps v with
      | error e => rw [hv] at h; simp at h
      | ok sv =>
          rw [hv] at h
          cases hr : dumpsList (PyList.cons w tl) with
          | error e => rw [hr] at h; simp at h
          | ok rest =>
              rw [hr] at h
              injection h with h2
              exact h2 ▸ NoNL_append
                (NoNL_append (dumps_noNL v sv hv) (by decide))
                (dumpsList_noNL (PyList.cons w tl) rest hr)

theorem dumpsObj_noNL : ∀ (kvs : PyObj) (s : String),
    dumpsObj kvs = Except.ok s → NoNL s
  | PyObj.nil, s, h => by
      rw [dumpsObj] at h
      injection h with h2
      exact h2 ▸ (by decide)
  | PyObj.cons k v PyObj.nil, s, h => by
      rw [dumpsObj] at h
      cases hv : dumps v with
      | error e => rw [hv] at h; simp at h
      | ok sv =>
          rw [hv] at h
          injection h with h2
          exact h2 ▸ NoNL_append
            (NoNL_append (strDumps_noNL k) (by decide)) (dumps_noNL v sv hv)
  | PyObj.cons k v (PyObj.cons k2 v2 tl), s, h => by
      rw [dumpsObj] at h
      cases hv : dumps v with
      | error e => rw [hv] at h; simp at h
      | ok sv =>
          rw [hv] at h
          cases hr : dumpsObj (PyObj.cons k2 v2 tl) with
          | error e => rw [hr] at h; simp at h
          | ok rest =>
              rw [hr] at h
              injection h with h2
              exact h2 ▸ NoNL_append
                (NoNL_append
                  (NoNL_append (NoNL_append (strDumps_noNL k) (by decide))
                    (dumps_noNL v sv hv))
                  (by decide))
                (dumpsObj_noNL (PyObj.cons k2 v2 tl) rest hr)
end

mutual
theorem dumps_serOk : ∀ v : PyVal, serOk v = true → ∃ s, dumps v = Except.ok s
  | PyVal.null, _ => ⟨"null", by rw [dumps]⟩
  | PyVal.num q f, h => by
      rw [serOk] at h
      subst h
      exact ⟨numDumps q true, by rw [dumps, if_pos rfl]⟩
  | PyVal.str s0, _ => ⟨strDumps s0, by rw [dumps]⟩
  | PyVal.list xs, h => by
      rw [serOk] at h
      obtain ⟨body, hb⟩ := dumpsList_serOk xs h
      exact ⟨"[" ++ body ++ "]", by rw [dumps, hb]⟩
  | PyVal.obj kvs, h => by
      rw [serOk] at h
      obtain ⟨body, hb⟩ := dumpsObj_serOk kvs h
      exact ⟨"\x7b" ++ body ++ "\x7d", by rw [dumps, hb]⟩

theorem dumpsList_serOk : ∀ xs : PyList, serOkList xs = true →
    ∃ s, dumpsList xs = Except.ok s
  | PyList.nil, _ => ⟨"", by rw [dumpsList]⟩
  | PyList.cons v PyList.nil, h => by
      rw [serOkList, Bool.and_eq_true] at h
      obtain ⟨s, hs⟩ := dumps_serOk v h.1
      exact ⟨s, by rw [dumpsList]; exact hs⟩
  | PyList.cons v (PyList.cons w tl), h => by
      rw [serOkList, Bool.and_eq_true] at h
      obtain ⟨s1, hs1⟩ := dumps_serOk v h.1
      obtain ⟨s2, hs2⟩ := dumpsList_serOk (PyList.cons w tl) h.2
      exact ⟨s1 ++ ", " ++ s2, by rw [dumpsList, hs1, hs2]⟩

theorem dumpsObj_serOk : ∀ kvs : PyObj, serOkObj kvs = true →
    ∃ s, dumpsObj kvs = Except.ok s
  | PyObj.nil, _ => ⟨"", by rw [dumpsObj]⟩
  | PyObj.cons k v PyObj.nil, h => by
      rw [serOkObj, Bool.and_eq_true] at h
      obtain ⟨s, hs⟩ := dumps_serOk v h.1
      exact ⟨strDumps k ++ ": " ++ s, by rw [dumpsObj, hs]⟩
  | PyObj.cons k v (PyObj.cons k2 v2 tl), h => by
      rw [serOkObj, Bool.and_eq_true] at h
      obtain ⟨s1, hs1⟩ := dumps_serOk v h.1
      obtain ⟨s2, hs2⟩ := dumpsObj_serOk (PyObj.cons k2 v2 tl) h.2
      exact ⟨strDumps k ++ ": " ++ s1 ++ ", " ++ s2, by rw [dumpsObj, hs1, hs2]⟩
end

theorem zip_vals_take : ∀ (ks : List String) (vs : List PyVal),
    ks.zip vs = ks.zip (vs.take ks.length)
  | [], vs => by simp
  | k :: ks, [] => by simp
  | k :: ks, v :: vs => by
      simp only [List.zip_cons_cons, List.length_cons, List.take_succ_cons]
      rw [← zip_vals_take ks vs]

theorem serOkObj_ofList (l : List (String × PyVal))
    (h : ∀ kv ∈ l, serOk kv.2 = true) : serOkObj (PyObj.ofList l) = true := by
  induction l with
  | nil => rw [PyObj.ofList, serOkObj]
  | cons kv tl ih =>
      obtain ⟨k, v⟩ := kv
      rw [PyObj.ofList, serOkObj]
      rw [h (k, v) (List.mem_cons_self _ _),
        ih (fun kv hkv => h kv (List.mem_cons_of_mem _ hkv))]
      rfl

theorem serOk_mkAction (idv : PyVal) (h : serOk idv = true) :
    serOk (mkAction idv) = true := by
  simp [mkAction, serOk, serOkObj, h]

theorem dumpsLines_ok : ∀ vs : List PyVal, (∀ v ∈ vs, serOk v = true) →
    ∃ lines, dumpsLines vs = Except.ok lines ∧ lines.length = vs.length ∧
      ∀ s ∈ lines, NoNL s
  | [], _ => ⟨[], rfl, rfl, by simp⟩
  | v :: tl, h => by
      obtain ⟨s, hs⟩ := dumps_serOk v (h v (List.mem_cons_self _ _))
      obtain ⟨lines, h1, h2, h3⟩ :=
        dumpsLines_ok tl (fun x hx => h x (List.mem_cons_of_mem _ hx))
      refine ⟨s :: lines, ?_, by simp [h2], ?_⟩
      · rw [dumpsLines, hs, h1]
      · intro s2 hs2
        rcases List.mem_cons.mp hs2 with rfl | hs2
        · exact dumps_noNL v s2 hs
        · exact h3 s2 hs2

theorem zip_keys_ne (ks : List String) (vs : List PyVal) (key : String)
    (hk : key ∉ ks) : ∀ kv ∈ ks.zip vs, kv.1 ≠ key := by
  intro kv hkv contra
  have h1 := (List.of_mem_zip hkv).1
  rw [contra] at h1
  exact hk h1

theorem dictDel_nmem (l : List (String × PyVal)) (key : String)
    (h : ∀ kv ∈ l, kv.1 ≠ key) : dictDel l key = l := by
  rw [dictDel]
  refine List.filter_eq_self.mpr ?_
  intro kv hkv
  simpa using h kv hkv

theorem dictSet_nmem (l : List (String × PyVal)) (key : String) (v : PyVal)
    (h : ∀ kv ∈ l, kv.1 ≠ key) : dictSet l key v = l := by
  rw [dictSet]
  have heach : ∀ kv ∈ l, (if kv.1 = key then (key, v) else kv) = id kv :=
    fun kv hkv => if_neg (h kv hkv)
  rw [List.map_congr_left heach, List.map_id]

/-- Computation of `transformMovie` on any row that has at least its first
two columns: the `zip` silently truncates at the shorter list, the action
line is built from the first column, and the document keeps exactly the
zipped keys with the rating possibly coerced. -/
theorem transformMovie_eq (idv rv : PyVal) (rest : List PyVal) :
    transformMovie (idv :: rv :: rest) =
      (if truthy rv then
        match pyFloat rv with
        | Except.error e => Except.error e
        | Except.ok fv =>
            Except.ok (mkAction idv,
              PyVal.obj (PyObj.ofList
                (("imdb_rating", fv) :: movieTailKeys.zip rest)))
      else
        Except.ok (mkAction idv,
          PyVal.obj (PyObj.ofList
            (("imdb_rating", rv) :: movieTailKeys.zip rest)))) := by
  have hne1 : ∀ kv ∈ movieTailKeys.zip rest, kv.1 ≠ "_id" :=
    zip_keys_ne movieTailKeys rest "_id" (by decide)
  have hne2 : ∀ kv ∈ movieTailKeys.zip rest, kv.1 ≠ "imdb_rating" :=
    zip_keys_ne movieTailKeys rest "imdb_rating" (by decide)
  have hf1 : List.filter (fun kv => kv.1 != "_id") (movieTailKeys.zip rest) =
      movieTailKeys.zip rest := by
    have h := dictDel_nmem (movieTailKeys.zip rest) "_id" hne1
    rwa [dictDel] at h
  have hm1 : ∀ fv, List.map
      (fun kv => if kv.1 = "imdb_rating" then ("imdb_rating", fv) else kv)
      (movieTailKeys.zip rest) = movieTailKeys.zip rest := by
    intro fv
    have h := dictSet_nmem (movieTailKeys.zip rest) "imdb_rating" fv hne2
    rwa [dictSet] at h
  show (if truthy rv = true then
      match pyFloat rv with
      | Except.error e => Except.error e
      | Except.ok fv =>
          Except.ok (mkAction idv, PyVal.obj (PyObj.ofList (("imdb_rating", fv) ::
            List.map
              (fun kv => if kv.1 = "imdb_rating" then ("imdb_rating", fv) else kv)
              (List.filter (fun kv => kv.1 != "_id") (movieTailKeys.zip rest)))))
    else
      Except.ok (mkAction idv, PyVal.obj (PyObj.ofList (("imdb_rating", rv) ::
        List.filter (fun kv => kv.1 != "_id") (movieTailKeys.zip rest))))) = _
  rw [hf1]
  simp only [hm1]

/-- C7 (amended): for a full row, a present (non-`NULL`) nonzero rating is
coerced to a `float` of the same value; a present rating of zero fails the
truthiness test and is left exactly as it arrived (not coerced); an absent
(`NULL`) rating is preserved as `null`. -/
theorem rating_coercion (v0 g t dsc di an wn ac wr ts : PyVal) (q : ℚ)
    (f : Bool) :
    (∃ kvs, transformMovie [v0, PyVal.num q f, g, t, dsc, di, an, wn, ac, wr, ts] =
        Except.ok (mkAction v0, PyVal.obj kvs) ∧
      objLookup kvs "imdb_rating" =
        some (if q = 0 then PyVal.num q f else PyVal.num q true)) ∧
    (∃ kvs, transformMovie [v0, PyVal.null, g, t, dsc, di, an, wn, ac, wr, ts] =
        Except.ok (mkAction v0, PyVal.obj kvs) ∧
      objLookup kvs "imdb_rating" = some PyVal.null) := by
  constructor
  · by_cases hq : q = 0
    · refine ⟨PyObj.ofList (("imdb_rating", PyVal.num q f) ::
        movieTailKeys.zip [g, t, dsc, di, an, wn, ac, wr, ts]), ?_, ?_⟩
      · rw [transformMovie_eq, if_neg (by simp [truthy, hq])]
      · rw [if_pos hq]
        rfl
    · refine ⟨PyObj.ofList (("imdb_rating", PyVal.num q true) ::
        movieTailKeys.zip [g, t, dsc, di, an, wn, ac, wr, ts]), ?_, ?_⟩
      · rw [transformMovie_eq, if_pos (by simp [truthy, hq])]
        rfl
      · rw [if_neg hq]
        rfl
  · refine ⟨PyObj.ofList (("imdb_rating", PyVal.null) ::
      movieTailKeys.zip [g, t, dsc, di, an, wn, ac, wr, ts]), ?_, rfl⟩
    rw [transformMovie_eq, if_neg (by decide)]

/-- C7 (counterexample): a record whose rating is the `Decimal` zero —
present, not absent — is *not* coerced: `if movie_dict['imdb_rating']:`
is false for zero, so the document keeps the un-coerced zero. -/
theorem rating_zero_not_coerced_cex :
    transformMovie [PyVal.str "m1", PyVal.num 0 false, PyVal.null,
        PyVal.null, PyVal.null, PyVal.null, PyVal.null, PyVal.null,
        PyVal.null, PyVal.null, PyVal.null] =
      Except.ok (mkAction (PyVal.str "m1"),
        PyVal.obj (PyObj.ofList (("imdb_rating", PyVal.num 0 false) ::
          movieTailKeys.zip [PyVal.null, PyVal.null, PyVal.null, PyVal.null,
            PyVal.null, PyVal.null, PyVal.null, PyVal.null, PyVal.null]))) ∧
    isFloatPy (PyVal.num 0 false) = false := by
  refine ⟨?_, rfl⟩
  rw [transformMovie_eq, if_neg (by decide)]

/-- C8 (amended): a malformed record that still has its first two columns
(identifier and a `NULL`-or-numeric rating) but is missing later required
fields does not fail loudly: `zip` silently truncates, and the transformer
emits the action line plus a partial document holding only the keys the
row reached — fewer than the 9 the document should carry.  (No
`TransformError` exists anywhere in the code.) -/
theorem malformed_row_partial_doc (idv rv : PyVal) (rest : List PyVal)
    (hrv : isRatingVal rv = true) (hlen : rest.length < 8) :
    ∃ rv', transformMovie (idv :: rv :: rest) =
        Except.ok (mkAction idv,
          PyVal.obj (PyObj.ofList
            (("imdb_rating", rv') :: movieTailKeys.zip rest))) ∧
      (("imdb_rating", rv') :: movieTailKeys.zip rest).length = 1 + rest.length ∧
      1 + rest.length < 9 := by
  have hzlen : (movieTailKeys.zip rest).length = rest.length := by
    rw [List.length_zip]
    have : movieTailKeys.length = 8 := rfl
    omega
  match rv, hrv with
  | PyVal.null, _ =>
      refine ⟨PyVal.null, ?_, by rw [List.length_cons, hzlen, Nat.add_comm], by omega⟩
      rw [transformMovie_eq, if_neg (by decide)]
  | PyVal.num q f, _ =>
      by_cases hq : q = 0
      · refine ⟨PyVal.num q f, ?_, by rw [List.length_cons, hzlen, Nat.add_comm], by omega⟩
        rw [transformMovie_eq, if_neg (by simp [truthy, hq])]
      · refine ⟨PyVal.num q true, ?_, by rw [List.length_cons, hzlen, Nat.add_comm], by omega⟩
        rw [transformMovie_eq, if_pos (by simp [truthy, hq])]
        rfl

/-- Witness for `malformed_row_partial_doc`: a row with only 3 of its 11
columns. -/
theorem malformed_row_partial_doc_witness :
    ∃ rv', transformMovie [PyVal.str "m1", PyVal.num 5 false, PyVal.str "Drama"] =
        Except.ok (mkAction (PyVal.str "m1"),
          PyVal.obj (PyObj.ofList
            (("imdb_rating", rv') :: movieTailKeys.zip [PyVal.str "Drama"]))) ∧
      (("imdb_rating", rv') :: movieTailKeys.zip [PyVal.str "Drama"]).length =
        1 + [PyVal.str "Drama"].length ∧
      1 + [PyVal.str "Drama"].length < 9 :=
  malformed_row_partial_doc (PyVal.str "m1") (PyVal.num 5 false)
    [PyVal.str "Drama"] (by decide) (by decide)

/-- C8 (counterexample): a record missing 8 of its 11 columns is
transformed *successfully* — no error of any kind, in particular no
`TransformError` — into an action line plus a partial two-field document. -/
theorem transform_missing_fields_cex :
    transformMovie [PyVal.str "m1", PyVal.num 5 false, PyVal.str "Drama"] =
      Except.ok (mkAction (PyVal.str "m1"),
        PyVal.obj (PyObj.cons "imdb_rating" (PyVal.num 5 true)
          (PyObj.cons "genre" (PyVal.str "Drama") PyObj.nil))) := by
  rw [transformMovie_eq, if_pos (by decide)]
  rfl

/-- A well-formed, serializable Source Record row transforms into an
action line plus a document object, both of which `json.dumps` accepts. -/
theorem transformMovie_full (m : List PyVal) (hm : SourceRowSer m) :
    ∃ idv kvs, transformMovie m = Except.ok (mkAction idv, PyVal.obj kvs) ∧
      serOk (mkAction idv) = true ∧ serOk (PyVal.obj kvs) = true := by
  obtain ⟨hlen, hid, hrat, hfields⟩ := hm
  rcases m with _ | ⟨v0, m⟩
  · simp at hlen
  rcases m with _ | ⟨v1, m⟩
  · simp at hlen
  have hid2 : serOk v0 = true := hid
  have hrat2 : ratingSer v1 = true := hrat
  have hfields2 : ∀ v ∈ m.take 8, serOk v = true := hfields
  have hact : serOk (mkAction v0) = true := serOk_mkAction v0 hid2
  have hdoc : ∀ rv2, serOk rv2 = true →
      serOk (PyVal.obj (PyObj.ofList
        (("imdb_rating", rv2) :: movieTailKeys.zip m))) = true := by
    intro rv2 hrv2
    rw [serOk]
    apply serOkObj_ofList
    intro kv hkv
    rcases List.mem_cons.mp hkv with rfl | hkv
    · exact hrv2
    · rw [zip_vals_take] at hkv
      rw [show movieTailKeys.length = 8 from rfl] at hkv
      exact hfields2 kv.2 (List.of_mem_zip hkv).2
  match v1, hrat2 with
  | PyVal.null, _ =>
      refine ⟨v0, PyObj.ofList (("imdb_rating", PyVal.null) ::
        movieTailKeys.zip m), ?_, hact, hdoc PyVal.null rfl⟩
      rw [transformMovie_eq, if_neg (by decide)]
  | PyVal.num q f, hr2 =>
      by_cases hq : q = 0
      · have hf : f = true := by
          rw [ratingSer] at hr2
          subst hq
          simpa using hr2
        refine ⟨v0, PyObj.ofList (("imdb_rating", PyVal.num q f) ::
          movieTailKeys.zip m), ?_, hact,
          hdoc (PyVal.num q f) (by rw [serOk]; exact hf)⟩
        rw [transformMovie_eq, if_neg (by simp [truthy, hq])]
      · refine ⟨v0, PyObj.ofList (("imdb_rating", PyVal.num q true) ::
          movieTailKeys.zip m), ?_, hact, hdoc (PyVal.num q true) (by rw [serOk])⟩
        rw [transformMovie_eq, if_pos (by simp [truthy, hq])]
        rfl

/-- `result` for a chunk of well-formed serializable rows: success, with
one serializable action/document pair per row, in row order. -/
theorem transformResult_ok (chunk : List (List PyVal))
    (h : ∀ m ∈ chunk, SourceRowSer m) :
    ∃ units : List (PyVal × PyVal),
      transformResult chunk = Except.ok (units.flatMap fun u => [u.1, u.2]) ∧
      units.length = chunk.length ∧
      (∀ u ∈ units, ∃ idv, u.1 = mkAction idv) ∧
      (∀ u ∈ units, serOk u.1 = true ∧ serOk u.2 = true) := by
  induction chunk with
  | nil => exact ⟨[], rfl, rfl, by simp, by simp⟩
  | cons m tl ih =>
      obtain ⟨idv, kvs, hm, hact, hdoc⟩ :=
        transformMovie_full m (h m (List.mem_cons_self m tl))
      obtain ⟨units, h1, h2, h3, h4⟩ := ih (fun x hx => h x (List.mem_cons_of_mem m hx))
      refine ⟨(mkAction idv, PyVal.obj kvs) :: units, ?_, by simp [h2], ?_, ?_⟩
      · rw [transformResult, hm, h1]
        rfl
      · intro u hu
        rcases List.mem_cons.mp hu with rfl | hu
        · exact ⟨idv, rfl⟩
        · exact h3 u hu
      · intro u hu
        rcases List.mem_cons.mp hu with rfl | hu
        · exact ⟨hact, hdoc⟩
        · exact h4 u hu

theorem flatMap_pair_length (units : List (PyVal × PyVal)) :
    (units.flatMap fun u => [u.1, u.2]).length = 2 * units.length := by
  induction units with
  | nil => rfl
  | cons u us ih =>
      rw [List.flatMap_cons, List.length_append, ih]
      simp only [List.length_cons, List.length_nil, List.length_cons]
      omega

/-- `'\n'.join` over newline-free lines contains one newline per joint. -/
theorem pyJoin_nl_count : ∀ L : List String, L ≠ [] → (∀ s ∈ L, NoNL s) →
    (pyJoin "\n" L).data.count '\n' = L.length - 1
  | [], hL, _ => (hL rfl).elim
  | [s], _, h => by
      rw [pyJoin]
      simpa using List.count_eq_zero.mpr (h s (List.mem_singleton.mpr rfl))
  | s :: r :: L', _, h => by
      rw [pyJoin]
      rw [String.data_append, String.data_append, List.count_append,
        List.count_append]
      rw [List.count_eq_zero.mpr (h s (List.mem_cons_self _ _))]
      rw [pyJoin_nl_count (r :: L') (List.cons_ne_nil r L')
        (fun x hx => h x (List.mem_cons_of_mem s hx))]
      rw [show (("\n" : String).data.count '\n') = 1 from rfl]
      simp only [List.length_cons]
      omega

theorem append_nl_getLast (s : String) :
    (s ++ "\n").data.getLast? = some '\n' := by
  rw [String.data_append]
  rw [List.getLast?_append_of_ne_nil s.data (by decide)]
  rfl

/-- C6 (counterexample): a non-empty chunk of one well-formed Source
Record — identifier `"m1"` and a *present* rating of zero, delivered by
the driver as a `Decimal` — produces no payload at all: the zero fails
the truthiness test so it escapes `float(...)` coercion, reaches
`json.dumps` as a `Decimal`, and raises `TypeError`, so
`transform_movies` errors instead of emitting the claimed 2N-line
payload. -/
theorem payload_zero_decimal_cex :
    transform_movies [[PyVal.str "m1", PyVal.num 0 false, PyVal.null,
      PyVal.null, PyVal.null, PyVal.null, PyVal.null, PyVal.null,
      PyVal.null, PyVal.null, PyVal.null]] =
      Except.error PyErr.typeError := by
  have h1 : transformMovie [PyVal.str "m1", PyVal.num 0 false, PyVal.null,
      PyVal.null, PyVal.null, PyVal.null, PyVal.null, PyVal.null,
      PyVal.null, PyVal.null, PyVal.null] =
      Except.ok (mkAction (PyVal.str "m1"),
        PyVal.obj (PyObj.ofList (("imdb_rating", PyVal.num 0 false) ::
          movieTailKeys.zip [PyVal.null, PyVal.null, PyVal.null, PyVal.null,
            PyVal.null, PyVal.null, PyVal.null, PyVal.null, PyVal.null]))) := by
    rw [transformMovie_eq, if_neg (by decide)]
  rw [transform_movies, transformResult, h1]
  rfl

/-- C6 (amended): for every non-empty chunk of N well-formed Source
Records whose transform serializes — JSON-serializable identifier and
document fields, and no present zero-`Decimal` rating, which would reach
`json.dumps` un-coerced and raise `TypeError` with no payload —
`transform_movies` succeeds and its payload is the newline-join of the
2N serialized lines, alternating action line and document in order, plus
one final newline: exactly 2N newline characters, one terminating each
line, and the payload's last character is a newline. -/
theorem payload_shape (chunk : List (List PyVal)) (h1 : chunk ≠ [])
    (h2 : ∀ m ∈ chunk, SourceRowSer m) :
    ∃ (units : List (PyVal × PyVal)) (lines : List String),
      units.length = chunk.length ∧
      (∀ u ∈ units, ∃ idv, u.1 = mkAction idv) ∧
      transformResult chunk = Except.ok (units.flatMap fun u => [u.1, u.2]) ∧
      dumpsLines (units.flatMap fun u => [u.1, u.2]) = Except.ok lines ∧
      lines.length = 2 * chunk.length ∧
      transform_movies chunk = Except.ok (pyJoin "\n" lines ++ "\n") ∧
      (pyJoin "\n" lines ++ "\n").data.count '\n' = 2 * chunk.length ∧
      (pyJoin "\n" lines ++ "\n").data.getLast? = some '\n' := by
  obtain ⟨units, hres, hlen, hact, hser⟩ := transformResult_ok chunk h2
  have hallser : ∀ v ∈ units.flatMap (fun u => [u.1, u.2]), serOk v = true := by
    intro v hv
    obtain ⟨u, hu, hvu⟩ := List.mem_flatMap.mp hv
    rcases List.mem_cons.mp hvu with rfl | hvu
    · exact (hser u hu).1
    · rw [List.mem_singleton] at hvu
      subst hvu
      exact (hser u hu).2
  obtain ⟨lines, hdl, hdllen, hdlNoNL⟩ := dumpsLines_ok _ hallser
  have hlines2N : lines.length = 2 * chunk.length := by
    rw [hdllen, flatMap_pair_length, hlen]
  have hchne : chunk.length ≠ 0 := fun hz => h1 (List.length_eq_zero.mp hz)
  have hlne : lines ≠ [] := by
    intro hcon
    rw [hcon] at hlines2N
    have h0 : (0 : Nat) = 2 * chunk.length := hlines2N
    omega
  refine ⟨units, lines, hlen, hact, hres, hdl, hlines2N, ?_, ?_,
    append_nl_getLast _⟩
  · rw [transform_movies, hres]
    show (match dumpsLines (units.flatMap fun u => [u.1, u.2]) with
      | Except.error e => Except.error e
      | Except.ok lines => Except.ok (pyJoin "\n" lines ++ "\n")) = _
    rw [hdl]
  · rw [String.data_append, List.count_append]
    rw [pyJoin_nl_count lines hlne hdlNoNL, hlines2N]
    rw [show (("\n" : String).data.count '\n') = 1 from rfl]
    omega

/-- Witness for `payload_shape` on a one-record chunk (nonzero `Decimal`
rating, which the transform coerces to a serializable float). -/
theorem payload_shape_witness :
    ∃ (units : List (PyVal × PyVal)) (lines : List String),
      units.length = ([[PyVal.str "m1", PyVal.num 5 false, PyVal.null,
        PyVal.null, PyVal.null, PyVal.null, PyVal.null, PyVal.null,
        PyVal.null, PyVal.null, PyVal.null]] : List (List PyVal)).length ∧
      (∀ u ∈ units, ∃ idv, u.1 = mkAction idv) ∧
      transformResult [[PyVal.str "m1", PyVal.num 5 false, PyVal.null,
        PyVal.null, PyVal.null, PyVal.null, PyVal.null, PyVal.null,
        PyVal.null, PyVal.null, PyVal.null]] =
        Except.ok (units.flatMap fun u => [u.1, u.2]) ∧
      dumpsLines (units.flatMap fun u => [u.1, u.2]) = Except.ok lines ∧
      lines.length = 2 * ([[PyVal.str "m1", PyVal.num 5 false, PyVal.null,
        PyVal.null, PyVal.null, PyVal.null, PyVal.null, PyVal.null,
        PyVal.null, PyVal.null, PyVal.null]] : List (List PyVal)).length ∧
      transform_movies [[PyVal.str "m1", PyVal.num 5 false, PyVal.null,
        PyVal.null, PyVal.null, PyVal.null, PyVal.null, PyVal.null,
        PyVal.null, PyVal.null, PyVal.null]] =
        Except.ok (pyJoin "\n" lines ++ "\n") ∧
      (pyJoin "\n" lines ++ "\n").data.count '\n' =
        2 * ([[PyVal.str "m1", PyVal.num 5 false, PyVal.null, PyVal.null,
          PyVal.null, PyVal.null, PyVal.null, PyVal.null, PyVal.null,
          PyVal.null, PyVal.null]] : List (List PyVal)).length ∧
      (pyJoin "\n" lines ++ "\n").data.getLast? = some '\n' :=
  payload_shape [[PyVal.str "m1", PyVal.num 5 false, PyVal.null, PyVal.null,
    PyVal.null, PyVal.null, PyVal.null, PyVal.null, PyVal.null, PyVal.null,
    PyVal.null]] (by simp)
    (by
      intro m hm
      rw [List.mem_singleton] at hm
      subst hm
      exact ⟨rfl, rfl, by decide, by decide⟩)

/-- C4 (counterexample): with two payloads whose first POST raises a
transport error, `upload_movies` swallows the failure — no exception
escapes toward the Retry-Policy-wrapped `_execute` — and simply moves on
to the second payload. -/
theorem upload_failure_swallowed_cex :
    upload_movies
        (fun p => if p = "p1" then Except.error "connection reset"
          else Except.ok ())
        ["p1", "p2"] =
      ([UploadEvent.posted false, UploadEvent.posted true, UploadEvent.slept],
        none) := by
  rfl

/-- C4 (amended): every transport failure raised while POSTing a payload
is caught inside `upload_movies` and logged; nothing is re-raised, so no
upload failure ever reaches the Retry Policy around `_execute`.  The loop
always attempts every payload exactly once, failures included. -/
theorem upload_failures_swallowed (post : String → Except String Unit)
    (payloads : List String) :
    (upload_movies post payloads).2 = none ∧
    ((upload_movies post payloads).1.filter isPosted).length =
      payloads.length := by
  induction payloads with
  | nil => exact ⟨rfl, rfl⟩
  | cons p rest ih =>
      rw [upload_movies]
      cases hp : post p with
      | ok u =>
          refine ⟨ih.1, ?_⟩
          simp [List.filter_cons, isPosted, ih.2]
      | error e =>
          refine ⟨ih.1, ?_⟩
          simp [List.filter_cons, isPosted, ih.2]

/-- C3 (counterexample): SIGINT has no registered handler at all, and the
SIGTERM handler exits immediately instead of setting a cooperative-stop
flag, so a SIGTERM arriving mid-cycle does not let the cycle complete. -/
theorem cooperative_shutdown_cex :
    Sig.sigint ∉ registeredSignals ∧
    terminate_process.2 = HandlerEffect.exitNow ∧
    cycleCompletes Sig.sigterm = false := by
  decide

/-- C3 (amended): only SIGTERM is registered, its handler terminates the
process immediately via `sys.exit()` rather than setting a
cooperative-stop flag, and consequently no termination signal — neither
SIGTERM through its handler nor SIGINT through the default
`KeyboardInterrupt` — lets the in-flight cycle run to completion. -/
theorem shutdown_interrupts_cycle (s : Sig) :
    registeredSignals = [Sig.sigterm] ∧
    terminate_process.2 = HandlerEffect.exitNow ∧
    cycleCompletes s = false := by
  cases s <;> decide

end ETL

